import Mathlib

/-!
# Verification of the intent router and RAG pipeline

A shallow embedding of the core decision logic of the zentoria
personal-edition AI orchestrator: the command router
(`src/core/router.py`) and the RAG pipeline (`src/core/rag.py`).

Conventions of the embedding:
* Python text is modelled as `List Char` where slicing/length matter, and
  as `String` where only equality matters (identifiers, metadata keys).
* Python `float` confidence values and similarity scores are modelled as
  exact rationals `ℚ`; every confidence the router produces is an exact
  decimal constant or `min (h * 0.3) 1`, so no rounding behaviour is lost.
* The pattern-score dictionary produced by `CommandRouter._pattern_match`
  is modelled as an association list in dictionary insertion order, which
  is the key order of `INTENT_PATTERNS`; its entries always carry a
  positive score (the source only inserts when `score > 0`).
* The generation backend is a parameter: `Except String String` stands
  for a transport failure carrying an error, or a successful raw reply.
* The vector store is modelled as a list of points; `scroll` returns the
  matching points up to its `limit`, `delete` removes by point id.
-/

/-- The fixed set of agent categories: `AgentType` in
`src/core/models.py`, constructors in enum definition order. -/
inductive AgentType where
  | file
  | mail
  | key
  | workflow
  | security
  | chat
  | code
  | search
deriving DecidableEq, Repr, Inhabited

/-- Routing decision methods appearing in `route()` metadata. -/
inductive Method where
  | forced
  | pattern
  | llm
  | default
  | priorityWeighted
deriving DecidableEq, Repr

/-- The routing metadata produced by `CommandRouter.route`: the `method`
and `confidence` entries of the returned dict. -/
structure RouteMeta where
  method : Method
  confidence : ℚ
deriving DecidableEq, Repr

/-- Static priority weights for conflict resolution:
`AGENT_PRIORITIES` in `src/core/router.py` lines 60-69. -/
def AGENT_PRIORITIES : AgentType → Nat
  | .code => 10
  | .file => 9
  | .mail => 8
  | .key => 8
  | .workflow => 7
  | .security => 7
  | .search => 5
  | .chat => 1

/-- The key order of the `INTENT_PATTERNS` table
(`src/core/router.py` lines 16-57).  `_pattern_match` iterates this
table in definition order, so the score dictionary it builds lists
categories in this order. -/
def intentPatternOrder : List AgentType :=
  [.file, .mail, .key, .workflow, .security, .code, .search, .chat]

/-- Index of a category in the `INTENT_PATTERNS` table order. -/
def tableIdx (a : AgentType) : Nat := intentPatternOrder.indexOf a

/-- Characterisation of the score maps `_pattern_match` can produce: an
association list whose keys form a subsequence of the
`INTENT_PATTERNS` key order and whose scores are all positive (the
source inserts a category only when its hit count is `> 0`). -/
def ValidScores (scores : List (AgentType × Nat)) : Prop :=
  List.Sublist (scores.map Prod.fst) intentPatternOrder ∧ ∀ p ∈ scores, 0 < p.2

/-- The comparison used by `route()` for
`sorted(scores.items(), key=lambda x: x[1], reverse=True)`:
descending by raw hit count.  Python `sorted` is stable, as is
`List.insertionSort` with this non-strict relation. -/
def scoreDesc (x y : AgentType × Nat) : Prop := y.2 ≤ x.2

instance : DecidableRel scoreDesc :=
  fun x y => inferInstanceAs (Decidable (y.2 ≤ x.2))

instance : IsTotal (AgentType × Nat) scoreDesc :=
  ⟨fun x y => le_total y.2 x.2⟩

instance : IsTrans (AgentType × Nat) scoreDesc :=
  ⟨fun _ _ _ h1 h2 => le_trans h2 h1⟩

/-- Python `max(iterable, key=...)`: fold keeping the current best and
replacing it only on a strictly greater key, so the FIRST element
attaining the maximum wins.  Models line 130 of `router.py`. -/
def maxFirst : (AgentType × Nat) → List (AgentType × Nat) → AgentType × Nat
  | best, [] => best
  | best, y :: ys => maxFirst (if best.2 < y.2 then y else best) ys

/-- The weighted score map built by `_resolve_conflicts`
(`router.py` lines 124-127): raw score times static priority. -/
def weightedScores (scores : List (AgentType × Nat)) : List (AgentType × Nat) :=
  scores.map (fun p => (p.1, p.2 * AGENT_PRIORITIES p.1))

/-- Embeds `CommandRouter._resolve_conflicts` (`router.py` lines 111-130):
empty map falls back to chat; otherwise return the key with the maximum
priority-weighted score, ties resolved to the first key in dictionary
iteration order (Python `max` keeps the first maximal element). -/
def resolveConflicts (scores : List (AgentType × Nat)) : AgentType :=
  if scores.isEmpty then AgentType.chat
  else
    let weighted := weightedScores scores
    (maxFirst weighted.headI weighted.tail).1

/-- Python `str.strip()`: drop leading and trailing whitespace of a text
modelled as a character list. -/
def pyStrip (s : List Char) : List Char :=
  ((s.dropWhile Char.isWhitespace).reverse.dropWhile Char.isWhitespace).reverse

/-- The normalisation `_llm_classify` applies to the raw backend reply
(`router.py` line 176): `response.strip().lower().replace(":", "").replace(" ", "")`.
Replacing a single-character pattern by the empty string removes every
occurrence of that character, so the two `replace` calls are translated
as a filter dropping colons and spaces. -/
def normalizeReply (s : List Char) : List Char :=
  (((pyStrip s).map Char.toLower).filter (fun c => c ≠ ':')).filter (fun c => c ≠ ' ')

/-- The `agent_map` lookup table of `_llm_classify`
(`router.py` lines 179-189). -/
def agentMap : List (List Char × AgentType) :=
  [("file".data, .file), ("mail".data, .mail), ("email".data, .mail),
   ("key".data, .key), ("workflow".data, .workflow),
   ("security".data, .security), ("code".data, .code),
   ("search".data, .search), ("chat".data, .chat)]

/-- Embeds `CommandRouter._llm_classify` (`router.py` lines 132-195) as a
function of the generation backend outcome: a transport failure (the
`except` branch) yields `none`; a successful reply is normalised and
looked up in `agent_map`, `dict.get` returning `none` on a miss. -/
def llmClassify (gen : Except String (List Char)) : Option AgentType :=
  match gen with
  | .error _ => none
  | .ok response => agentMap.lookup (normalizeReply response)

/-- Embeds `CommandRouter.route` (`router.py` lines 197-260).  The
pattern-score map is passed as an association list in `INTENT_PATTERNS`
iteration order (what `self._pattern_match(text)` returns), and
`llmResult` stands for the outcome of `self._llm_classify(text, context)`. -/
def route (forceAgent : Option AgentType) (scores : List (AgentType × Nat))
    (llmResult : Option AgentType) : AgentType × RouteMeta :=
  match forceAgent with
  | some a => (a, ⟨Method.forced, 1⟩)
  | none =>
    if scores.length = 0 then
      match llmResult with
      | some c => (c, ⟨Method.llm, 8/10⟩)
      | none => (AgentType.chat, ⟨Method.default, 5/10⟩)
    else if scores.length = 1 then
      (scores.headI.1, ⟨Method.pattern, min ((scores.headI.2 : ℚ) * (3/10)) 1⟩)
    else
      let sorted := List.insertionSort scoreDesc scores
      let top := sorted.headI
      let second := if 1 < sorted.length then (sorted.getD 1 (AgentType.chat, 0)).2 else 0
      if second * 2 < top.2 then (top.1, ⟨Method.pattern, 9/10⟩)
      else (resolveConflicts scores, ⟨Method.priorityWeighted, 7/10⟩)

example : route none [(.file, 5), (.search, 1)] none =
    (AgentType.file, ⟨Method.pattern, 9/10⟩) := rfl

example : route none [(.mail, 2), (.key, 2)] none =
    (AgentType.mail, ⟨Method.priorityWeighted, 7/10⟩) := rfl

example : route none [(.chat, 2)] none =
    (AgentType.chat, ⟨Method.pattern, min (((2 : Nat) : ℚ) * (3/10)) 1⟩) := rfl

example : route none [] none = (AgentType.chat, ⟨Method.default, 5/10⟩) := rfl

example : llmClassify (.ok " Mail:".data) = some AgentType.mail := by decide

example : llmClassify (.ok "none of these".data) = none := by decide

/-- A retrieved document as built by `RAGPipeline.search`
(`rag.py` lines 201-211): point id, chunk content, payload metadata
minus the content key, similarity score. -/
structure Document where
  id : String
  content : List Char
  metadata : List (String × String)
  score : ℚ
deriving DecidableEq, Repr

/-- A citation dict as built by `RAGPipeline.query`
(`rag.py` lines 306-316): keys `id`, `source`, `content`, `score`. -/
structure Citation where
  id : String
  source : String
  content : List Char
  score : ℚ
deriving DecidableEq, Repr

/-- The citation text preview (`rag.py` lines 311-313):
`doc.content[:200] + "..." if len(doc.content) > 200 else doc.content`. -/
def citationPreview (content : List Char) : List Char :=
  if 200 < content.length then content.take 200 ++ ['.', '.', '.'] else content

/-- The citation-building loop of `RAGPipeline.query`
(`rag.py` lines 304-316): one citation per retrieved document, in
retrieval order, guarded by `include_citations`. -/
def buildCitations (documents : List Document) (includeCitations : Bool) :
    List Citation :=
  if includeCitations then
    documents.map (fun doc =>
      ⟨doc.id, (doc.metadata.lookup "doc_id").getD "unknown",
        citationPreview doc.content, doc.score⟩)
  else []

/-- Embeds `RAGPipeline.query` (`rag.py` lines 271-318) as a function of
the retrieval result and the generated answer: the returned pair is the
backend response together with the citations built from the retrieved
documents. -/
def ragQuery (documents : List Document) (response : String)
    (includeCitations : Bool) : String × List Citation :=
  (response, buildCitations documents includeCitations)

/-- A vector-store point as upserted by `RAGPipeline.index_document`
(`rag.py` lines 121-131): generated point id, payload
`{doc_id, content, chunk_index, total_chunks}`, embedding vector.
Point ids (uuid4 strings in the source) are modelled as naturals drawn
from a fresh-id stream; their only operation is equality. -/
structure Point where
  pointId : Nat
  docId : String
  content : List Char
  chunkIndex : Nat
  totalChunks : Nat
  vector : List ℚ
deriving DecidableEq, Repr

/-- The point-construction loop of `index_document` (`rag.py` lines
121-131): enumerate `zip(chunks, embeddings)`, draw a fresh id per
point, and attach the payload. -/
def mkPoints (freshId : Nat → Nat) (docId : String)
    (chunks : List (List Char)) (embeddings : List (List ℚ)) : List Point :=
  (chunks.zip embeddings).enum.map
    (fun ie => ⟨freshId ie.1, docId, ie.2.1, ie.1, chunks.length, ie.2.2⟩)

/-- Qdrant `upsert`: points whose id already exists are overwritten,
fresh ids are inserted. -/
def upsert (store newPoints : List Point) : List Point :=
  store.filter (fun p => decide (p.pointId ∉ newPoints.map Point.pointId))
    ++ newPoints

/-- The outcome of `index_document`: the vector store after the call,
the returned chunk count, and how many times the embedding backend was
invoked during the call. -/
structure IndexOutcome where
  store : List Point
  returned : Nat
  embedCalls : Nat
deriving DecidableEq, Repr

/-- Embeds `RAGPipeline.index_document` (`rag.py` lines 89-145),
parametrised by the text splitter (`self._text_splitter.split_text`),
the embedding backend (`llm.embed`), and the fresh-id stream
(`uuid.uuid4`).  If the splitter returns no chunks the function returns
0 without touching the embedding backend or the store; otherwise it
embeds the chunks once, builds one point per chunk and upserts them,
returning the chunk count. -/
def indexDocument (split : List Char → List (List Char))
    (embed : List (List Char) → List (List ℚ)) (freshId : Nat → Nat)
    (docId : String) (content : List Char) (store : List Point) :
    IndexOutcome :=
  let chunks := split content
  if chunks.isEmpty then ⟨store, 0, 0⟩
  else
    let embeddings := embed chunks
    let points := mkPoints freshId docId chunks embeddings
    ⟨upsert store points, chunks.length, 1⟩

/-- Embeds `RAGPipeline.delete_document` (`rag.py` lines 320-354):
scroll for the points whose payload `doc_id` matches, with the source's
hard `limit=1000` and no pagination follow-up, delete exactly those
point ids, and return how many ids were deleted.  Result: the store
after the call and the returned count. -/
def deleteDocument (docId : String) (store : List Point) :
    List Point × Nat :=
  let pointIds :=
    ((store.filter (fun p => decide (p.docId = docId))).take 1000).map
      Point.pointId
  (store.filter (fun p => decide (p.pointId ∉ pointIds)), pointIds.length)

example :
    buildCitations [⟨"p1", ['h', 'i'], [("doc_id", "d1")], 1⟩] true =
      [⟨"p1", "d1", ['h', 'i'], 1⟩] := rfl

example :
    (indexDocument (fun _ => []) (fun cs => cs.map (fun _ => [])) id "d"
      [] []).returned = 0 := rfl

example :
    (deleteDocument "d"
      [⟨0, "d", [], 0, 1, []⟩, ⟨1, "e", [], 0, 1, []⟩]).2 = 1 := rfl

lemma lookup_mem {α β : Type} [BEq α] {l : List (α × β)} {k : α} {v : β}
    (h : l.lookup k = some v) : ∃ a, (a, v) ∈ l := by
  induction l with
  | nil => simp [List.lookup] at h
  | cons p ps ih =>
    rcases p with ⟨a, b⟩
    rw [List.lookup] at h
    by_cases hk : k == a
    · rw [hk] at h
      simp only [Option.some.injEq] at h
      exact ⟨a, by simp [h]⟩
    · rw [Bool.not_eq_true] at hk
      rw [hk] at h
      rcases ih h with ⟨a2, hmem⟩
      exact ⟨a2, List.mem_cons_of_mem _ hmem⟩

/-- C2: for an input whose pattern-score map contains exactly one
category `a` with `h` total hits, `route()` returns `a` with
method=pattern and confidence `min (h * 0.3) 1`. -/
theorem route_single_match (a : AgentType) (h : Nat)
    (llmResult : Option AgentType) :
    route none [(a, h)] llmResult =
      (a, ⟨Method.pattern, min ((h : ℚ) * (3/10)) 1⟩) := rfl

/-- C3: for an input producing an empty pattern-score map, `route()`
returns the fallback classifier's category with method=llm and
confidence 0.8 when classification succeeds, and category=chat with
method=default and confidence 0.5 when the classifier returns no
category (transport failure or unrecognized reply). -/
theorem route_empty_scores (gen : Except String (List Char)) :
    (llmClassify gen = none →
      route none [] (llmClassify gen) =
        (AgentType.chat, ⟨Method.default, 5/10⟩)) ∧
    (∀ c, llmClassify gen = some c →
      route none [] (llmClassify gen) = (c, ⟨Method.llm, 8/10⟩)) := by
  constructor
  · intro h
    rw [h]
    rfl
  · intro c h
    rw [h]
    rfl

theorem route_empty_scores_witness :
    route none [] (llmClassify (Except.error "backend unreachable")) =
      (AgentType.chat, ⟨Method.default, 5/10⟩) :=
  (route_empty_scores (Except.error "backend unreachable")).1 rfl

/-- C4: on a score map holding two categories with equal raw hit counts
but different static priority weights, the conflict resolver picks the
higher-priority category, in whichever order the two entries appear. -/
theorem resolveConflicts_priority (a b : AgentType) (s : Nat)
    (hpri : AGENT_PRIORITIES b < AGENT_PRIORITIES a) (hs : 0 < s) :
    resolveConflicts [(a, s), (b, s)] = a ∧
      resolveConflicts [(b, s), (a, s)] = a := by
  have hys : (0 : Nat) < s := hs
  have hlt : s * AGENT_PRIORITIES b < s * AGENT_PRIORITIES a :=
    mul_lt_mul_of_pos_left hpri hys
  have hnlt : ¬ s * AGENT_PRIORITIES a < s * AGENT_PRIORITIES b :=
    not_lt.2 (le_of_lt hlt)
  constructor
  · simp [resolveConflicts, weightedScores, maxFirst, hnlt]
  · simp [resolveConflicts, weightedScores, maxFirst, hlt]

theorem resolveConflicts_priority_witness :
    resolveConflicts [(AgentType.code, 1), (AgentType.file, 1)] =
        AgentType.code ∧
      resolveConflicts [(AgentType.file, 1), (AgentType.code, 1)] =
        AgentType.code :=
  resolveConflicts_priority AgentType.code AgentType.file 1 (by decide)
    (by decide)

/-- C7: a document whose content splits into zero chunks leaves the
vector store untouched, returns 0, and never invokes the embedding
backend. -/
theorem indexDocument_no_chunks (split : List Char → List (List Char))
    (embed : List (List Char) → List (List ℚ)) (freshId : Nat → Nat)
    (docId : String) (content : List Char) (store : List Point)
    (h : split content = []) :
    indexDocument split embed freshId docId content store =
      ⟨store, 0, 0⟩ := by
  simp [indexDocument, h]

theorem indexDocument_no_chunks_witness :
    indexDocument (fun c => if c.isEmpty then [] else [c])
      (fun cs => cs.map (fun _ => [])) id "notes" [] [] = ⟨[], 0, 0⟩ :=
  indexDocument_no_chunks _ _ _ _ _ _ rfl

/-- C8: the fallback classifier is a total function of the generation
backend outcome: a transport failure yields `none`, a successful reply
is normalised and looked up in the fixed `agent_map`, and every
non-`none` answer is a category drawn from that map — no input makes it
raise. -/
theorem llmClassify_total (gen : Except String (List Char)) :
    (∀ e, gen = Except.error e → llmClassify gen = none) ∧
    (∀ s, gen = Except.ok s →
      llmClassify gen = agentMap.lookup (normalizeReply s)) ∧
    (llmClassify gen = none ∨
      ∃ c, llmClassify gen = some c ∧ ∃ k, (k, c) ∈ agentMap) := by
  refine ⟨?_, ?_, ?_⟩
  · intro e h
    rw [h]
    rfl
  · intro s h
    rw [h]
    rfl
  · match gen with
    | .error e => exact Or.inl rfl
    | .ok s =>
      rcases heq : agentMap.lookup (normalizeReply s) with _ | c
      · exact Or.inl (by simp [llmClassify, heq])
      · exact Or.inr ⟨c, by simp [llmClassify, heq], lookup_mem heq⟩

theorem llmClassify_total_witness :
    llmClassify (Except.error "connection refused") = none :=
  (llmClassify_total (Except.error "connection refused")).1
    "connection refused" rfl


/-- C9: whatever branch `route()` takes (forced, pattern single-match,
clear-winner, priority-weighted, llm fallback, or default), the
confidence in the returned decision metadata lies in `[0, 1]`. -/
theorem route_confidence_bounds (forceAgent : Option AgentType)
    (scores : List (AgentType × Nat)) (llmResult : Option AgentType) :
    0 ≤ (route forceAgent scores llmResult).2.confidence ∧
      (route forceAgent scores llmResult).2.confidence ≤ 1 := by
  rcases forceAgent with _ | a
  · rcases llmResult with _ | c
    · simp only [route]
      split_ifs <;> dsimp only <;> constructor <;> norm_num
    · simp only [route]
      split_ifs <;> dsimp only <;> constructor <;> norm_num
  · simp only [route]
    constructor <;> norm_num

/-- C1: when the pattern-score map holds two or more categories,
`route()` sorts them descending by raw hit count (stably, as Python
`sorted` does); the head of the sort carries the maximal raw score.  If
the top raw score strictly exceeds twice the second raw score, the top
category is returned with method=pattern and confidence 0.9; otherwise
the priority-weighted resolver's choice is returned with
method=priority_weighted and confidence 0.7. -/
theorem route_multiple_matches (scores : List (AgentType × Nat))
    (llmResult : Option AgentType) (t1 t2 : AgentType × Nat)
    (ts : List (AgentType × Nat)) (hlen : 2 ≤ scores.length)
    (hsort : List.insertionSort scoreDesc scores = t1 :: t2 :: ts) :
    (∀ p ∈ scores, p.2 ≤ t1.2) ∧
    (t2.2 * 2 < t1.2 →
      route none scores llmResult = (t1.1, ⟨Method.pattern, 9/10⟩)) ∧
    (t1.2 ≤ t2.2 * 2 →
      route none scores llmResult =
        (resolveConflicts scores, ⟨Method.priorityWeighted, 7/10⟩)) := by
  have h0 : ¬ scores.length = 0 := by omega
  have h1 : ¬ scores.length = 1 := by omega
  have hperm := List.perm_insertionSort scoreDesc scores
  have hsorted := List.sorted_insertionSort scoreDesc scores
  rw [hsort] at hperm hsorted
  refine ⟨?_, ?_, ?_⟩
  · intro p hp
    have hmem : p ∈ t1 :: t2 :: ts := hperm.symm.subset hp
    rcases hmem with _ | hmem
    · exact le_refl _
    · exact List.rel_of_sorted_cons hsorted p (by assumption)
  · intro hlt
    simp only [route, if_neg h0, if_neg h1, hsort, List.length_cons,
      List.headI, List.getD_cons_succ, List.getD_cons_zero]
    rw [if_pos (show 1 < ts.length + 1 + 1 by omega), if_pos hlt]
  · intro hle
    simp only [route, if_neg h0, if_neg h1, hsort, List.length_cons,
      List.headI, List.getD_cons_succ, List.getD_cons_zero]
    rw [if_pos (show 1 < ts.length + 1 + 1 by omega), if_neg (not_lt.2 hle)]

theorem route_multiple_matches_witness :
    route none [(AgentType.file, 5), (AgentType.search, 1)] none =
      (AgentType.file, ⟨Method.pattern, 9/10⟩) :=
  (route_multiple_matches [(AgentType.file, 5), (AgentType.search, 1)] none
    (AgentType.file, 5) (AgentType.search, 1) [] (by decide)
    (by decide)).2.1 (by decide)

lemma maxFirst_first_max (l : List (AgentType × Nat)) (best : AgentType × Nat) :
    (maxFirst best l = best ∧ ∀ y ∈ l, y.2 ≤ best.2) ∨
    (∃ pre y post, l = pre ++ y :: post ∧ maxFirst best l = y ∧
      best.2 < y.2 ∧ (∀ q ∈ pre, q.2 < y.2) ∧ (∀ q ∈ post, q.2 ≤ y.2)) := by
  induction l generalizing best with
  | nil => exact Or.inl ⟨rfl, by simp⟩
  | cons y ys ih =>
    by_cases hc : best.2 < y.2
    · rcases ih y with ⟨heq, hall⟩ | ⟨pre, z, post, hl, heq, hzlt, hpre, hpost⟩
      · refine Or.inr ⟨[], y, ys, rfl, ?_, hc, by simp, hall⟩
        simpa [maxFirst, hc] using heq
      · refine Or.inr ⟨y :: pre, z, post, by rw [hl]; rfl, ?_,
          lt_trans hc hzlt, ?_, hpost⟩
        · simpa [maxFirst, hc] using heq
        · intro q hq
          rcases List.mem_cons.1 hq with h2 | hq
          · rw [h2]
            exact hzlt
          · exact hpre q hq
    · rcases ih best with ⟨heq, hall⟩ | ⟨pre, z, post, hl, heq, hzlt, hpre, hpost⟩
      · refine Or.inl ⟨?_, ?_⟩
        · simpa [maxFirst, hc] using heq
        · intro q hq
          rcases List.mem_cons.1 hq with h2 | hq
          · rw [h2]
            exact not_lt.1 hc
          · exact hall q hq
      · refine Or.inr ⟨y :: pre, z, post, by rw [hl]; rfl, ?_, hzlt, ?_, hpost⟩
        · simpa [maxFirst, hc] using heq
        · intro q hq
          rcases List.mem_cons.1 hq with h2 | hq
          · rw [h2]
            exact lt_of_le_of_lt (not_lt.1 hc) hzlt
          · exact hpre q hq

lemma weightedScores_pairwise_idx (scores : List (AgentType × Nat))
    (hv : ValidScores scores) :
    (weightedScores scores).Pairwise
      (fun p q => tableIdx p.1 < tableIdx q.1) := by
  have htab : intentPatternOrder.Pairwise
      (fun x y => tableIdx x < tableIdx y) := by decide
  have hkeys := htab.sublist hv.1
  rw [List.pairwise_map] at hkeys
  rw [weightedScores, List.pairwise_map]
  exact hkeys

/-- C10: on any score map `_pattern_match` can produce (keys in
`INTENT_PATTERNS` definition order, positive scores), the conflict
resolver returns a category whose weighted score is maximal, and every
other category tied at that maximal weighted score sits strictly later
in the pattern-table definition order: the resolver deterministically
picks the earliest tied category, because the score dict is built in
table order and Python `max` keeps the first maximal entry. -/
theorem resolveConflicts_first_of_ties (scores : List (AgentType × Nat))
    (hv : ValidScores scores) (hne : scores ≠ []) :
    ∃ v, (resolveConflicts scores, v) ∈ weightedScores scores ∧
      (∀ q ∈ weightedScores scores, q.2 ≤ v) ∧
      (∀ q ∈ weightedScores scores, q.2 = v →
        q.1 = resolveConflicts scores ∨
          tableIdx (resolveConflicts scores) < tableIdx q.1) := by
  have hpw := weightedScores_pairwise_idx scores hv
  rcases hW : weightedScores scores with _ | ⟨w0, ws⟩
  · exfalso
    apply hne
    rcases scores with _ | ⟨p, ps⟩
    · rfl
    · simp [weightedScores] at hW
  · have hemp : scores.isEmpty = false := by
      rcases scores with _ | ⟨p, ps⟩
      · exact absurd rfl hne
      · rfl
    have hres : resolveConflicts scores = (maxFirst w0 ws).1 := by
      rw [resolveConflicts, hemp]
      simp only [Bool.false_eq_true, if_false, hW, List.headI, List.tail]
    rw [hW] at hpw
    have hpwtail := (List.pairwise_cons.1 hpw)
    rcases maxFirst_first_max ws w0 with ⟨heq, hall⟩ | ⟨pre, z, post, hl, heq, hzlt, hpre, hpost⟩
    · refine ⟨w0.2, ?_, ?_, ?_⟩
      · rw [hres, heq]
        exact List.mem_cons_self _ _
      · intro q hq
        rcases List.mem_cons.1 hq with h2 | hq
        · rw [h2]
        · exact hall q hq
      · intro q hq hv2
        rcases List.mem_cons.1 hq with h2 | hq
        · exact Or.inl (by rw [h2, hres, heq])
        · exact Or.inr (by rw [hres, heq]; exact hpwtail.1 q hq)
    · refine ⟨z.2, ?_, ?_, ?_⟩
      · rw [hres, heq]
        exact List.mem_cons_of_mem _ (by rw [hl]; exact List.mem_append_right _ (List.mem_cons_self _ _))
      · intro q hq
        rcases List.mem_cons.1 hq with h2 | hq
        · rw [h2]
          exact le_of_lt hzlt
        · rw [hl] at hq
          rcases List.mem_append.1 hq with hq | hq
          · exact le_of_lt (hpre q hq)
          · rcases List.mem_cons.1 hq with h2 | hq
            · rw [h2]
            · exact hpost q hq
      · intro q hq hv2
        rcases List.mem_cons.1 hq with h2 | hq
        · exfalso
          rw [h2] at hv2
          omega
        · rw [hl] at hq
          rcases List.mem_append.1 hq with hq | hq
          · exfalso
            have := hpre q hq
            omega
          · rcases List.mem_cons.1 hq with h2 | hq
            · exact Or.inl (by rw [h2, hres, heq])
            · refine Or.inr ?_
              rw [hres, heq]
              have hpw2 : (pre ++ z :: post).Pairwise
                  (fun p q => tableIdx p.1 < tableIdx q.1) := by
                rw [← hl]
                exact hpwtail.2
              have hz := (List.pairwise_append.1 hpw2).2.1
              exact (List.pairwise_cons.1 hz).1 q hq

theorem resolveConflicts_first_of_ties_witness :
    ∃ v, (resolveConflicts [(AgentType.mail, 2), (AgentType.key, 2)], v) ∈
        weightedScores [(AgentType.mail, 2), (AgentType.key, 2)] ∧
      (∀ q ∈ weightedScores [(AgentType.mail, 2), (AgentType.key, 2)],
        q.2 ≤ v) ∧
      (∀ q ∈ weightedScores [(AgentType.mail, 2), (AgentType.key, 2)],
        q.2 = v →
          q.1 = resolveConflicts [(AgentType.mail, 2), (AgentType.key, 2)] ∨
            tableIdx
                (resolveConflicts [(AgentType.mail, 2), (AgentType.key, 2)]) <
              tableIdx q.1) :=
  resolveConflicts_first_of_ties [(AgentType.mail, 2), (AgentType.key, 2)]
    ⟨by decide, by decide⟩ (by decide)

lemma citationPreview_length (content : List Char) :
    (citationPreview content).length =
      if 200 < content.length then 203 else content.length := by
  rw [citationPreview]
  split_ifs with h
  · rw [List.length_append, List.length_take]
    simp
    omega
  · rfl

/-- A retrieved document whose chunk text is 201 characters long. -/
def longDoc : Document :=
  ⟨"p1", List.replicate 201 'a', [("doc_id", "d1")], 1⟩

/-- C6 counterexample: the claim that every citation's text preview is
at most 200 characters fails on a retrieved document with 201
characters of content: the stored preview is the first 200 characters
plus the three-character ellipsis marker, 203 characters in total. -/
theorem citation_preview_over_200 :
    ∃ c ∈ (ragQuery [longDoc] "answer" true).2, 200 < c.content.length := by
  refine ⟨⟨"p1", "d1", citationPreview (List.replicate 201 'a'), 1⟩, ?_, ?_⟩
  · have h : (ragQuery [longDoc] "answer" true).2 =
        [⟨"p1", "d1", citationPreview (List.replicate 201 'a'), 1⟩] := rfl
    rw [h]
    exact List.mem_singleton_self _
  · rw [citationPreview_length]
    simp only [List.length_replicate]
    norm_num

/-- C6 (amended): a RAG query produces one citation per retrieved
document, in retrieval order (matching ids and scores index by index),
and each citation's preview is the document text when it is at most 200
characters, or its first 200 characters plus an ellipsis marker —
so the stored preview never exceeds 203 characters. -/
theorem ragQuery_citations (docs : List Document) (response : String) :
    ((ragQuery docs response true).2.length = docs.length) ∧
    (∀ i : Nat, ((ragQuery docs response true).2[i]?).map Citation.id =
      (docs[i]?).map Document.id) ∧
    (∀ i : Nat, ((ragQuery docs response true).2[i]?).map Citation.score =
      (docs[i]?).map Document.score) ∧
    (∀ c ∈ (ragQuery docs response true).2,
      c.content.length ≤ 203 ∧
        ∃ d ∈ docs, c.content = citationPreview d.content) := by
  refine ⟨?_, ?_, ?_, ?_⟩
  · simp [ragQuery, buildCitations]
  · intro i
    simp only [ragQuery, buildCitations, if_pos, List.getElem?_map]
    cases docs[i]? <;> rfl
  · intro i
    simp only [ragQuery, buildCitations, if_pos, List.getElem?_map]
    cases docs[i]? <;> rfl
  · intro c hc
    simp only [ragQuery, buildCitations, if_pos, List.mem_map] at hc
    rcases hc with ⟨d, hd, hcd⟩
    constructor
    · rw [← hcd]
      have := citationPreview_length d.content
      dsimp only
      rw [this]
      split_ifs <;> omega
    · exact ⟨d, hd, by rw [← hcd]⟩

theorem ragQuery_citations_witness :
    (⟨"p1", "d1", citationPreview (List.replicate 201 'a'), 1⟩ :
        Citation).content.length ≤ 203 ∧
      ∃ d ∈ [longDoc],
        (⟨"p1", "d1", citationPreview (List.replicate 201 'a'), 1⟩ :
            Citation).content = citationPreview d.content :=
  (ragQuery_citations [longDoc] "answer").2.2.2 _
    (by
      have h : (ragQuery [longDoc] "answer" true).2 =
          [⟨"p1", "d1", citationPreview (List.replicate 201 'a'), 1⟩] := rfl
      rw [h]
      exact List.mem_singleton_self _)

lemma mkPoints_pointIds (freshId : Nat → Nat) (docId : String)
    (chunks : List (List Char)) (embeddings : List (List ℚ)) :
    (mkPoints freshId docId chunks embeddings).map Point.pointId =
      (List.range (min chunks.length embeddings.length)).map freshId := by
  rw [mkPoints, List.map_map]
  have h1 : (Point.pointId ∘ fun ie : Nat × (List Char × List ℚ) =>
      (⟨freshId ie.1, docId, ie.2.1, ie.1, chunks.length, ie.2.2⟩ : Point)) =
      freshId ∘ Prod.fst := rfl
  rw [h1, ← List.map_map, List.enum_map_fst, List.length_zip]

lemma mkPoints_docId (freshId : Nat → Nat) (docId : String)
    (chunks : List (List Char)) (embeddings : List (List ℚ)) :
    ∀ p ∈ mkPoints freshId docId chunks embeddings, p.docId = docId := by
  intro p hp
  rw [mkPoints] at hp
  rcases List.mem_map.1 hp with ⟨ie, hie, hpe⟩
  rw [← hpe]

lemma map_filter_eq (p : Nat → Bool) (f : Point → Nat) (l : List Point) :
    (l.filter (fun x => p (f x))).map f = (l.map f).filter p := by
  induction l with
  | nil => rfl
  | cons x xs ih => by_cases h : p (f x) <;> simp [List.filter, h, ih]

lemma deleteDocument_count (d : String) (S : List Point) :
    (deleteDocument d S).2 =
      min 1000 (S.filter (fun p => decide (p.docId = d))).length := by
  simp [deleteDocument, List.length_take]

lemma deleteDocument_all_match (d : String) (S : List Point) (n : Nat)
    (hdoc : ∀ p ∈ S, p.docId = d)
    (hid : S.map Point.pointId = List.range n) :
    (deleteDocument d S).2 = min 1000 n ∧
    (deleteDocument d S).1.map Point.pointId =
      (List.range n).filter
        (fun i => decide (i ∉ List.range (min 1000 n))) ∧
    (∀ p ∈ (deleteDocument d S).1, p.docId = d) := by
  have hfilter : S.filter (fun p => decide (p.docId = d)) = S :=
    List.filter_eq_self.mpr (fun p hp => by simp [hdoc p hp])
  have hids : ((S.filter (fun p => decide (p.docId = d))).take 1000).map
      Point.pointId = List.range (min 1000 n) := by
    rw [hfilter, List.map_take, hid, List.take_range]
  refine ⟨?_, ?_, ?_⟩
  · show (((S.filter
        (fun p => decide (p.docId = d))).take 1000).map Point.pointId).length =
      min 1000 n
    rw [hids, List.length_range]
  · show (S.filter (fun p => decide (p.pointId ∉
        ((S.filter (fun p => decide (p.docId = d))).take 1000).map
          Point.pointId))).map Point.pointId = _
    rw [hids]
    rw [map_filter_eq (fun i => decide (i ∉ List.range (min 1000 n)))
      Point.pointId S, hid]
  · intro p hp
    have hmem : p ∈ S := List.mem_of_mem_filter hp
    exact hdoc p hmem

/-- A chunking result of 1001 chunks, one more than the hard `scroll`
limit inside `delete_document`. -/
def bigChunks : List (List Char) := List.replicate 1001 ['x']

def bigSplit : List Char → List (List Char) := fun _ => bigChunks

def noVec : List (List Char) → List (List ℚ) := fun cs => cs.map (fun _ => [])

/-- Indexing a document whose content splits into 1001 chunks into an
empty store. -/
def bigOutcome : IndexOutcome := indexDocument bigSplit noVec id "d" ['x'] []

lemma range_1001_filter :
    (List.range 1001).filter
      (fun i => decide (i ∉ List.range (min 1000 1001))) = [1000] := by
  have hmin : min 1000 1001 = 1000 := by norm_num
  have hr : List.range 1001 = List.range 1000 ++ [1000] := List.range_succ 1000
  rw [hmin, hr, List.filter_append]
  have h1 : (List.range 1000).filter
      (fun i => decide (i ∉ List.range 1000)) = [] := by
    rw [List.filter_eq_nil_iff]
    intro a ha
    simp [ha]
  rw [h1]
  have h2 : (1000 : Nat) ∉ List.range 1000 := by
    simp [List.mem_range]
  simp [h2]

lemma bigOutcome_store :
    bigOutcome.store = mkPoints id "d" bigChunks (noVec bigChunks) := by
  have hne : bigChunks.isEmpty = false := rfl
  rw [bigOutcome]
  simp only [indexDocument, bigSplit, hne]
  simp [upsert]

lemma bigOutcome_ids :
    bigOutcome.store.map Point.pointId = List.range 1001 := by
  rw [bigOutcome_store, mkPoints_pointIds]
  have hlen : bigChunks.length = 1001 := by
    rw [bigChunks, List.length_replicate]
  have hlen2 : (noVec bigChunks).length = 1001 := by
    rw [noVec, List.length_map, hlen]
  rw [hlen, hlen2, min_self, List.map_id]

lemma bigOutcome_docs : ∀ p ∈ bigOutcome.store, p.docId = "d" := by
  rw [bigOutcome_store]
  exact mkPoints_docId id "d" bigChunks (noVec bigChunks)

/-- C5 evaluated at its failing input: indexing a document that splits
into 1001 chunks reports 1001 chunks indexed, but `delete_document`
scrolls with a hard `limit=1000` and never follows the pagination
offset, so the first deletion removes and reports only 1000 points and
a repeated deletion on the same id reports 1 — not the claimed 1001
and 0. -/
theorem deleteDocument_limit_bug :
    bigOutcome.returned = 1001 ∧
    (deleteDocument "d" bigOutcome.store).2 = 1000 ∧
    (deleteDocument "d" (deleteDocument "d" bigOutcome.store).1).2 = 1 := by
  have hmain := deleteDocument_all_match "d" bigOutcome.store 1001
    bigOutcome_docs bigOutcome_ids
  refine ⟨?_, ?_, ?_⟩
  · have hne : bigChunks.isEmpty = false := rfl
    show (indexDocument bigSplit noVec id "d" ['x'] []).returned = 1001
    simp only [indexDocument, bigSplit, hne, Bool.false_eq_true, if_false]
    rw [bigChunks, List.length_replicate]
  · rw [hmain.1]
    norm_num
  · have hids2 := hmain.2.1
    rw [range_1001_filter] at hids2
    have hlen2 : (deleteDocument "d" bigOutcome.store).1.length = 1 := by
      have := congrArg List.length hids2
      rwa [List.length_map] at this
    rw [deleteDocument_count]
    have hfilter2 : (deleteDocument "d" bigOutcome.store).1.filter
        (fun p => decide (p.docId = "d")) =
        (deleteDocument "d" bigOutcome.store).1 :=
      List.filter_eq_self.mpr (fun p hp => by simp [hmain.2.2 p hp])
    rw [hfilter2, hlen2]
    norm_num
